import Mathlib

/-!
Verification development for the claw-stream-bot repository.

This file gives a shallow embedding, in Lean 4, of the parts of the
TypeScript source that the frozen claims talk about:

* `FrameSummarizer` (src/unnamed/part_005): the single-flight frame
  summarizer with its `isSummarizing` guard and `lastSummary` cache.
* The transcript coalescer inside `TwitchAudioCapture`
  (src/unnamed/part_006, `addToBuffer` / `flushBuffer`).
* The subprocess teardown of `TwitchAudioCapture.stop` / `killProcess`
  (src/unnamed/part_006) and of `TwitchStreamCapture.stop`
  (src/unnamed/part_001).
* The `VisionBroadcaster` hub (src/unnamed/part_006): connection
  registry, chat history, liveness, frame slot, metrics, fan-out.

Pure functions of the source become Lean functions; the stateful
classes become explicit state records with one step function per
method / event handler, and external event interleavings (timers,
promise resolutions, socket closes) become explicit operations of a
trace semantics.  `Date.now()` becomes an explicit `now : Nat`
argument threaded into each operation.
-/

/-! ## Generic list helpers (JS `Map` / `Array` semantics) -/

/-- JS `Map.set` on an association list: replace in place when the key is
present (a JS `Map` keeps the original insertion position of an existing
key), append otherwise. -/
def setAssoc {κ α : Type} [DecidableEq κ] (l : List (κ × α)) (k : κ) (a : α) :
    List (κ × α) :=
  if l.any (fun e => e.1 = k) then
    l.map (fun e => if e.1 = k then (k, a) else e)
  else
    l ++ [(k, a)]

/-- JS `Map.get` on an association list. -/
def getAssoc {κ α : Type} [DecidableEq κ] (l : List (κ × α)) (k : κ) : Option α :=
  (l.find? (fun e => e.1 = k)).map Prod.snd

/-- JS `Map.delete` on an association list (a key occurs at most once). -/
def delAssoc {κ α : Type} [DecidableEq κ] (l : List (κ × α)) (k : κ) :
    List (κ × α) :=
  l.filter (fun e => ¬ e.1 = k)

/-- `[...new Set(xs)]` in JS: deduplicate keeping the FIRST occurrence of
each element, in insertion order. -/
def jsSetDedupAux {α : Type} [DecidableEq α] (seen : List α) : List α → List α
  | [] => []
  | x :: xs =>
    if x ∈ seen then jsSetDedupAux seen xs
    else x :: jsSetDedupAux (x :: seen) xs

/-- `[...new Set(xs)]`. -/
def jsSetDedup {α : Type} [DecidableEq α] (l : List α) : List α :=
  jsSetDedupAux [] l

/-- JS `arr.slice(-n)`: the last `n` elements (the whole array when it is
shorter than `n`). -/
def jsSliceLast {α : Type} (n : Nat) (l : List α) : List α :=
  l.drop (l.length - n)

/-- JS truthiness of a `number | null` field (`null` and `0` are falsy). -/
def jsTruthyOptNat : Option Nat → Bool
  | none => false
  | some n => n != 0

/-- JS `String.prototype.trim()`: strip whitespace from both ends. -/
def jsTrim (s : String) : String :=
  String.mk
    (((s.data.dropWhile Char.isWhitespace).reverse.dropWhile
        Char.isWhitespace).reverse)

/-! ## Frame Summarizer (src/unnamed/part_005, class `FrameSummarizer`)

The class state is `{enabled, isSummarizing, lastSummary}` (the
`anthropic` client is non-null exactly when `enabled` is set, so one
flag suffices).  `summarizeFrame` is split at its single suspension
point (the `await this.anthropic.messages.create(...)`):
`summarizeFrameStart` is the synchronous prefix up to issuing the
describer request, and `summarizeFrameFinish` is the continuation that
runs when the request resolves (`some summary`) or rejects (`none`);
the `finally` clause clearing `isSummarizing` is part of the
continuation. -/

structure FrameSummarizer where
  enabled : Bool
  isSummarizing : Bool
  lastSummary : String
  deriving Repr, DecidableEq

def FrameSummarizer.init (enabled : Bool) : FrameSummarizer :=
  { enabled := enabled, isSummarizing := false, lastSummary := "" }

/-- What the synchronous prefix of `summarizeFrame` did. -/
inductive SummarizeStart where
  /-- the call returned `result` without issuing a describer request -/
  | immediate (result : String)
  /-- a describer request was issued; the call is now in flight -/
  | requested
  deriving Repr, DecidableEq

/-- `summarizeFrame` up to the `await`: returns `""` when disabled,
returns `lastSummary` when another summarization is in flight, and
otherwise sets `isSummarizing` and issues the request. -/
def summarizeFrameStart (st : FrameSummarizer) : SummarizeStart × FrameSummarizer :=
  if !st.enabled then (.immediate "", st)
  else if st.isSummarizing then (.immediate st.lastSummary, st)
  else (.requested, { st with isSummarizing := true })

/-- The continuation of `summarizeFrame` after the describer call:
on success (`some summary`) store and return the summary; on failure
(`none`, the `catch` branch) return `lastSummary` unchanged; either way
the `finally` clause clears `isSummarizing`. -/
def summarizeFrameFinish (st : FrameSummarizer) (res : Option String) :
    String × FrameSummarizer :=
  match res with
  | some summary =>
    (summary, { st with lastSummary := summary, isSummarizing := false })
  | none =>
    (st.lastSummary, { st with isSummarizing := false })

/-- An externally observable summarizer event: a call starting, or an
issued describer request resolving (`some s`) / rejecting (`none`). -/
inductive SumEvent where
  | start
  | finish (res : Option String)
  deriving Repr, DecidableEq

def stepSummarizer (st : FrameSummarizer) : SumEvent → FrameSummarizer
  | .start => (summarizeFrameStart st).2
  | .finish res => (summarizeFrameFinish st res).2

def runSummarizer (st : FrameSummarizer) (events : List SumEvent) : FrameSummarizer :=
  events.foldl stepSummarizer st

/-- Specification-side: the result of the most recent successful
describer completion in a trace (`""` when none succeeded yet). -/
def lastSuccessSpec (events : List SumEvent) : String :=
  events.foldl
    (fun acc e => match e with
      | .finish (some s) => s
      | _ => acc) ""

/-! ## Transcript coalescer (src/unnamed/part_006, `TwitchAudioCapture`
fields `transcriptBuffer` / `bufferTimeout` / `bufferStartTime` and
methods `addToBuffer` / `flushBuffer`) -/

structure TranscriptMessage where
  text : String
  timestamp : Nat
  deriving Repr, DecidableEq

/-- `BUFFER_DELAY_MS` -/
def bufferDelayMs : Nat := 1000

/-- `MAX_BUFFER_TIME_MS` -/
def maxBufferTimeMs : Nat := 3000

structure CoalescerState where
  /-- `transcriptBuffer` -/
  transcriptBuffer : List String
  /-- `bufferTimeout` field: `some deadline` when the field holds a
  pending debounce timer scheduled to fire at `deadline`, `none` when the
  field is `null` -/
  bufferTimeout : Option Nat
  /-- `bufferStartTime` -/
  bufferStartTime : Nat
  deriving Repr, DecidableEq

def CoalescerState.init : CoalescerState :=
  { transcriptBuffer := [], bufferTimeout := none, bufferStartTime := 0 }

/-- `flushBuffer()`: no-op on an empty buffer; otherwise join the
fragments with single spaces and trim, clear the buffer and null the
timer field, and emit one `TranscriptMessage` stamped `now` unless the
joined text is empty. -/
def flushBuffer (now : Nat) (st : CoalescerState) :
    CoalescerState × List TranscriptMessage :=
  if st.transcriptBuffer = [] then (st, [])
  else
    let combinedText := jsTrim (String.intercalate " " st.transcriptBuffer)
    let st' : CoalescerState :=
      { st with transcriptBuffer := [], bufferTimeout := none }
    if combinedText.length > 0 then
      (st', [{ text := combinedText, timestamp := now }])
    else
      (st', [])

/-- `addToBuffer(text)`: record `bufferStartTime` when the buffer was
empty, push the fragment, force a flush when the buffer has been filling
for `MAX_BUFFER_TIME_MS` or longer, and otherwise (re)arm the debounce
timer `BUFFER_DELAY_MS` from now. -/
def addToBuffer (now : Nat) (text : String) (st : CoalescerState) :
    CoalescerState × List TranscriptMessage :=
  let startTime := if st.transcriptBuffer = [] then now else st.bufferStartTime
  let st1 : CoalescerState :=
    { st with transcriptBuffer := st.transcriptBuffer ++ [text],
              bufferStartTime := startTime }
  if maxBufferTimeMs ≤ now - startTime then
    flushBuffer now st1
  else
    ({ st1 with bufferTimeout := some (now + bufferDelayMs) }, [])

/-- The debounce timer firing at its deadline: the scheduled callback
runs `flushBuffer`. -/
def timerFire (now : Nat) (st : CoalescerState) :
    CoalescerState × List TranscriptMessage :=
  flushBuffer now st

/-! ## Capture supervisors (src/unnamed/part_006 `TwitchAudioCapture.stop`
/ `killProcess`, and src/unnamed/part_001 `TwitchStreamCapture.stop`)

A tracked subprocess is modelled by what `stop()` can observe of it at
the moment of the call plus its behavioural response to a terminate
signal.  Times are milliseconds relative to the `stop()` call; signals
are sent at time 0. -/

structure CaptureProc where
  /-- Node's `proc.killed`: a signal was previously successfully sent
  to the process (it says nothing about the process having exited). -/
  killedFlag : Bool
  /-- `proc.exitCode !== null`: the process has already exited. -/
  exited : Bool
  /-- if `some d`, the process exits `d` ms after receiving SIGTERM;
  `none` means it ignores SIGTERM and keeps running. -/
  termExitDelay : Option Nat
  deriving Repr, DecidableEq

/-- Whether the process has exited by time `t` (SIGTERM sent at 0). -/
def CaptureProc.exitedBy (p : CaptureProc) (t : Nat) : Bool :=
  p.exited ||
    (match p.termExitDelay with
     | some d => decide (d ≤ t)
     | none => false)

/-- `proc.killed` after `killProcess` ran its `proc.kill("SIGTERM")`
line: `kill` sets the flag as soon as the signal is sent. -/
def killedAfterTerm (p : CaptureProc) : Bool :=
  if p.killedFlag || p.exited then p.killedFlag else true

/-- Whether `killProcess`'s 2-second timer sends SIGKILL.  The code
guards it with `if (!proc.killed && proc.exitCode === null)`; in the
branch where the timers were armed at all, SIGTERM was already sent, so
`proc.killed` is `true` there. -/
def killProcessSigkillSent (p : CaptureProc) : Bool :=
  if p.killedFlag || p.exited then false
  else !(killedAfterTerm p) && !(p.exitedBy 2000)

/-- When the promise returned by `killProcess` resolves: immediately if
the process was already signalled or already exited; otherwise at the
`exit`/`error` event if it comes within 3 seconds, and at the
unconditional `setTimeout(cleanup, 3000)` otherwise. -/
def killProcessResolveAt (p : CaptureProc) : Nat :=
  if p.killedFlag || p.exited then 0
  else
    match p.termExitDelay with
    | some d => min d 3000
    | none => 3000

/-- `TwitchAudioCapture.stop()` awaits `Promise.all` of `killProcess`
over the tracked set, so it returns when the slowest one resolves. -/
def audioStopReturnAt (procs : List CaptureProc) : Nat :=
  procs.foldr (fun p acc => max (killProcessResolveAt p) acc) 0

/-- `TwitchStreamCapture.stop()` (src/unnamed/part_001 lines 66-83):
clears the interval, sends `proc.kill()` to every tracked process whose
`killed` flag is unset, clears the tracking set, and returns.  The body
contains no `await` on any exit, so relative to the call the return
time is 0; the second component records which processes were sent the
terminate signal. -/
def twitchCaptureStop (procs : List CaptureProc) : Nat × List Bool :=
  (0, procs.map (fun p => !p.killedFlag))

/-! Scratch checks for the capture model. -/

example : killProcessResolveAt ⟨false, false, some 100⟩ = 100 := by decide
example : killProcessResolveAt ⟨false, false, none⟩ = 3000 := by decide
example : killProcessSigkillSent ⟨false, false, none⟩ = false := by decide
example : audioStopReturnAt [⟨false, false, some 100⟩, ⟨false, false, none⟩] = 3000 := by
  decide

/-! ## Broadcast hub (src/unnamed/part_006, class `VisionBroadcaster`)

WebSocket connections are identified by a `Nat`; whether a socket's
`readyState` is `OPEN` is tracked in `openConns`.  The set of
connections whose transport-level `send` fails is `sendFails`: the
source calls `claw.ws.send(serialized)` without a callback, so such a
failure surfaces only on the socket's `error` event, whose handler just
logs — no step function reads `sendFails`, mirroring that the hub's
behaviour never depends on a send outcome.

`broadcastFrame`'s `frame.summary = summary` mutates the very object
stored in `currentFrame`, so frames live in a heap (`frameHeap`, a
list indexed by allocation order) and `currentFrame` is a reference
into it.  `pendingSummaries` holds the heap references whose
`summarizeFrame(...).then(...)` continuation has not yet run. -/

structure StreamFrame where
  timestamp : Nat
  imageBase64 : String
  format : String
  width : Nat
  height : Nat
  summary : Option String
  deriving Repr, DecidableEq

structure ChatMessage where
  timestamp : Nat
  username : String
  displayName : String
  message : String
  channel : String
  isMod : Bool
  isSubscriber : Bool
  deriving Repr, DecidableEq

structure ClawParticipant where
  id : String
  name : String
  sessionId : String
  joinedAt : Nat
  lastSeen : Nat
  ipAddress : String
  isLocal : Bool
  deriving Repr, DecidableEq

structure ConnectedClaw where
  /-- the `ws` field: the WebSocket this registration is bound to -/
  conn : Nat
  participant : ClawParticipant
  deriving Repr, DecidableEq

structure StreamState where
  isLive : Bool
  currentFrame : Option StreamFrame
  recentChat : List ChatMessage
  participants : List ClawParticipant
  streamStartedAt : Option Nat
  deriving Repr, DecidableEq

/-- An outbound wire message (`VisionBroadcast` or the `pong` reply),
tagged with its `timestamp` field. -/
inductive WireMsg where
  | state (payload : StreamState) (timestamp : Nat)
  | frame (payload : StreamFrame) (timestamp : Nat)
  | chat (payload : ChatMessage) (timestamp : Nat)
  | transcript (payload : TranscriptMessage) (timestamp : Nat)
  | pong (timestamp : Nat)
  deriving Repr, DecidableEq

def WireMsg.isState : WireMsg → Bool
  | .state _ _ => true
  | _ => false

def WireMsg.isFrame : WireMsg → Bool
  | .frame _ _ => true
  | _ => false

def WireMsg.isChat : WireMsg → Bool
  | .chat _ _ => true
  | _ => false

def WireMsg.isTranscript : WireMsg → Bool
  | .transcript _ _ => true
  | _ => false

def WireMsg.isPong : WireMsg → Bool
  | .pong _ => true
  | _ => false

/-- `maxChatHistory` (class field, never reassigned). -/
def maxChatHistory : Nat := 100

/-- `LOCAL_IPS`. -/
def localIPs : List String := ["127.0.0.1", "::1", "localhost", "::ffff:127.0.0.1"]

/-- The local/foreign classification used at registration:
`LOCAL_IPS.includes(ip) || ip.startsWith("192.168.") || ip.startsWith("10.")`. -/
def classifyLocal (ip : String) : Bool :=
  localIPs.contains ip || ip.startsWith "192.168." || ip.startsWith "10."

structure HubState where
  /-- `connectedClaws : Map<string, ConnectedClaw>` as an insertion
  ordered association list keyed by claw id -/
  connectedClaws : List (String × ConnectedClaw)
  /-- `pendingConnections : Map<WebSocket, string>` (ws ↦ IP) -/
  pendingConnections : List (Nat × String)
  /-- `recentChat` -/
  recentChat : List ChatMessage
  /-- heap of frame objects, in allocation order -/
  frameHeap : List StreamFrame
  /-- `currentFrame`: a reference into `frameHeap`, or `null` -/
  currentFrame : Option Nat
  /-- `streamStartedAt : number | null` -/
  streamStartedAt : Option Nat
  /-- `totalConnectionsEver` -/
  totalConnectionsEver : Nat
  /-- `connectionsByIP : Map<string, number>` -/
  connectionsByIP : List (String × Nat)
  /-- `frameSummarizer.isEnabled()` -/
  summarizerEnabled : Bool
  /-- heap references with a `summarizeFrame(...).then(...)` continuation
  still pending -/
  pendingSummaries : List Nat
  /-- connections whose `readyState` is `OPEN` -/
  openConns : List Nat
  /-- connections whose transport `send` fails (never read by any step:
  the source ignores send outcomes) -/
  sendFails : List Nat
  deriving Repr, DecidableEq

def initHub (summarizerEnabled : Bool) (sendFails : List Nat) : HubState :=
  { connectedClaws := [], pendingConnections := [], recentChat := [],
    frameHeap := [], currentFrame := none, streamStartedAt := none,
    totalConnectionsEver := 0, connectionsByIP := [],
    summarizerEnabled := summarizerEnabled, pendingSummaries := [],
    openConns := [], sendFails := sendFails }

/-- `getStreamState()`: the derived snapshot; `recentChat.slice(-20)`
embeds only the last 20 chat messages, `isLive` is the null-check
`streamStartedAt !== null`, and the current frame is read through the
`currentFrame` reference. -/
def getStreamState (st : HubState) : StreamState :=
  { isLive := st.streamStartedAt.isSome,
    currentFrame := st.currentFrame.bind (fun r => st.frameHeap[r]?),
    recentChat := jsSliceLast 20 st.recentChat,
    participants := st.connectedClaws.map (fun e => e.2.participant),
    streamStartedAt := st.streamStartedAt }

/-- The fan-out loop of `broadcast(message)` over the registry entries:
an entry whose socket is `OPEN` is sent the serialized message and kept;
any other entry is deleted during this same pass.  Returns the surviving
entries (in order) and the sends attempted (in order). -/
def broadcastFold (openConns : List Nat) (msg : WireMsg) :
    List (String × ConnectedClaw) →
      List (String × ConnectedClaw) × List (Nat × WireMsg)
  | [] => ([], [])
  | e :: rest =>
    let tail := broadcastFold openConns msg rest
    if e.2.conn ∈ openConns then
      (e :: tail.1, (e.2.conn, msg) :: tail.2)
    else
      (tail.1, tail.2)

/-- `broadcast(message)`. -/
def hubBroadcast (msg : WireMsg) (st : HubState) :
    HubState × List (Nat × WireMsg) :=
  let r := broadcastFold st.openConns msg st.connectedClaws
  ({ st with connectedClaws := r.1 }, r.2)

/-- `broadcastState()`. -/
def broadcastStateStep (now : Nat) (st : HubState) :
    HubState × List (Nat × WireMsg) :=
  hubBroadcast (.state (getStreamState st) now) st

/-- The `wss.on("connection", ...)` handler: record the pending
connection's IP, bump `totalConnectionsEver` and the per-IP counter, and
send the current state snapshot directly to the new socket. -/
def connectStep (c : Nat) (ip : String) (now : Nat) (st : HubState) :
    HubState × List (Nat × WireMsg) :=
  let st' : HubState :=
    { st with
      pendingConnections := setAssoc st.pendingConnections c ip,
      totalConnectionsEver := st.totalConnectionsEver + 1,
      connectionsByIP :=
        setAssoc st.connectionsByIP ip
          ((getAssoc st.connectionsByIP ip).getD 0 + 1),
      openConns := if c ∈ st.openConns then st.openConns else c :: st.openConns }
  (st', [(c, .state (getStreamState st') now)])

/-- The `register` case of `handleClawMessage`: invalid registrations
(empty `clawId` or `clawName`, which are falsy in JS) are dropped;
otherwise the IP is taken from (and removed from) `pendingConnections`,
a participant record is built, `connectedClaws.set(clawId, ...)` binds
it, and the full state is re-broadcast. -/
def registerStep (c : Nat) (clawId clawName sessionId : String) (now : Nat)
    (st : HubState) : HubState × List (Nat × WireMsg) :=
  if clawId = "" || clawName = "" then (st, [])
  else
    let ip := (getAssoc st.pendingConnections c).getD "unknown"
    let participant : ClawParticipant :=
      { id := clawId, name := clawName, sessionId := sessionId,
        joinedAt := now, lastSeen := now, ipAddress := ip,
        isLocal := classifyLocal ip }
    let st' : HubState :=
      { st with
        pendingConnections := delAssoc st.pendingConnections c,
        connectedClaws :=
          setAssoc st.connectedClaws clawId ⟨c, participant⟩ }
    broadcastStateStep now st'

/-- The `ping` case of `handleClawMessage`: refresh `lastSeen` on the
first registry entry bound to this socket (if any) and reply `pong`
directly on the socket. -/
def pingStep (c : Nat) (now : Nat) (st : HubState) :
    HubState × List (Nat × WireMsg) :=
  let st' : HubState :=
    { st with
      connectedClaws :=
        match st.connectedClaws.find? (fun e => e.2.conn = c) with
        | none => st.connectedClaws
        | some e =>
          setAssoc st.connectedClaws e.1
            ⟨e.2.conn, { e.2.participant with lastSeen := now }⟩ }
  (st', [(c, .pong now)])

/-- `handleClawDisconnect` preceded by the socket actually closing
(`readyState` leaves `OPEN`): delete the first registry entry bound to
this socket and, when one was found, re-broadcast the state (which also
prunes every other non-open entry in the same pass). -/
def closeConnStep (c : Nat) (now : Nat) (st : HubState) :
    HubState × List (Nat × WireMsg) :=
  let st0 : HubState := { st with openConns := st.openConns.filter (fun o => o ≠ c) }
  match st0.connectedClaws.find? (fun e => e.2.conn = c) with
  | none => (st0, [])
  | some e =>
    broadcastStateStep now
      { st0 with connectedClaws := delAssoc st0.connectedClaws e.1 }

/-- A socket leaving the `OPEN` state without (or before) its `close`
event being processed: only the transport state changes. -/
def dieStep (c : Nat) (st : HubState) : HubState × List (Nat × WireMsg) :=
  ({ st with openConns := st.openConns.filter (fun o => o ≠ c) }, [])

/-- `setStreamLive(isLive)`: set the start timestamp on a falsy→live
transition, null it on a truthy→offline transition, and in every case
call `broadcastState()`. -/
def setStreamLiveStep (isLive : Bool) (now : Nat) (st : HubState) :
    HubState × List (Nat × WireMsg) :=
  let st' : HubState :=
    if isLive && !(jsTruthyOptNat st.streamStartedAt) then
      { st with streamStartedAt := some now }
    else if !isLive && jsTruthyOptNat st.streamStartedAt then
      { st with streamStartedAt := none }
    else st
  broadcastStateStep now st'

/-- The history update inside `broadcastChatMessage`:
`recentChat.push(m)` followed by `if (length > maxChatHistory) shift()`. -/
def pushChat (l : List ChatMessage) (m : ChatMessage) : List ChatMessage :=
  let pushed := l ++ [m]
  if maxChatHistory < pushed.length then pushed.tail else pushed

/-- `broadcastChatMessage(chatMessage)`: push onto `recentChat`, shift
the oldest entry off when the bound is exceeded, and fan the message
out. -/
def broadcastChatMessageStep (m : ChatMessage) (now : Nat) (st : HubState) :
    HubState × List (Nat × WireMsg) :=
  hubBroadcast (.chat m now) { st with recentChat := pushChat st.recentChat m }

/-- `broadcastTranscript(transcript)`: fan out immediately, no
buffering. -/
def broadcastTranscriptStep (t : TranscriptMessage) (now : Nat) (st : HubState) :
    HubState × List (Nat × WireMsg) :=
  hubBroadcast (.transcript t now) st

/-- `broadcastFrame(frame)`: install the frame object as `currentFrame`
synchronously; with the summarizer enabled the wire broadcast is
deferred to the `.then` continuation (recorded in `pendingSummaries`),
otherwise the raw frame is broadcast immediately. -/
def broadcastFrameStep (f : StreamFrame) (now : Nat) (st : HubState) :
    HubState × List (Nat × WireMsg) :=
  let r := st.frameHeap.length
  let st' : HubState :=
    { st with frameHeap := st.frameHeap ++ [f], currentFrame := some r }
  if st'.summarizerEnabled then
    ({ st' with pendingSummaries := st'.pendingSummaries ++ [r] }, [])
  else
    hubBroadcast (.frame f now) st'

/-- The `summarizeFrame(frame).then((summary) => ...)` continuation
resolving with `result` for the pending frame object `ref`: when the
result is truthy (non-empty) it is written onto that same frame object,
and the frame — as the object now stands — is broadcast. -/
def summaryResolvedStep (ref : Nat) (result : String) (now : Nat)
    (st : HubState) : HubState × List (Nat × WireMsg) :=
  if ref ∈ st.pendingSummaries then
    let heap :=
      if result = "" then st.frameHeap
      else
        match st.frameHeap[ref]? with
        | none => st.frameHeap
        | some f => st.frameHeap.set ref { f with summary := some result }
    let st' : HubState :=
      { st with frameHeap := heap,
                pendingSummaries := st.pendingSummaries.filter (fun r => r ≠ ref) }
    match heap[ref]? with
    | none => (st', [])
    | some f => hubBroadcast (.frame f now) st'
  else (st, [])

/-- The `/frame` HTTP endpoint: the current frame object, read through
the reference. -/
def frameEndpoint (st : HubState) : Option StreamFrame :=
  st.currentFrame.bind (fun r => st.frameHeap[r]?)

/-- `getMetrics()`: `totalConnections` is the cumulative counter;
`localConnections` / `foreignConnections` / `uniqueIPs` are derived
from the *current* participants; `connectionsByIP` is the cumulative
per-IP map. -/
structure ClawMetrics where
  totalConnections : Nat
  localConnections : Nat
  foreignConnections : Nat
  uniqueIPs : List String
  connectionsByIP : List (String × Nat)
  deriving Repr, DecidableEq

def getMetrics (st : HubState) : ClawMetrics :=
  let participants := st.connectedClaws.map (fun e => e.2.participant)
  { totalConnections := st.totalConnectionsEver,
    localConnections := (participants.filter (fun p => p.isLocal)).length,
    foreignConnections := (participants.filter (fun p => !p.isLocal)).length,
    uniqueIPs := jsSetDedup (participants.map (fun p => p.ipAddress)),
    connectionsByIP := st.connectionsByIP }

/-- An externally observable hub event. -/
inductive HubOp where
  | connect (c : Nat) (ip : String) (now : Nat)
  | register (c : Nat) (clawId clawName sessionId : String) (now : Nat)
  | ping (c : Nat) (now : Nat)
  | closeConn (c : Nat) (now : Nat)
  | die (c : Nat)
  | setStreamLive (isLive : Bool) (now : Nat)
  | broadcastChatMessage (m : ChatMessage) (now : Nat)
  | broadcastTranscript (t : TranscriptMessage) (now : Nat)
  | broadcastFrame (f : StreamFrame) (now : Nat)
  | summaryResolved (ref : Nat) (result : String) (now : Nat)
  deriving Repr, DecidableEq

def stepHub (op : HubOp) (st : HubState) : HubState × List (Nat × WireMsg) :=
  match op with
  | .connect c ip now => connectStep c ip now st
  | .register c id name sid now => registerStep c id name sid now st
  | .ping c now => pingStep c now st
  | .closeConn c now => closeConnStep c now st
  | .die c => dieStep c st
  | .setStreamLive b now => setStreamLiveStep b now st
  | .broadcastChatMessage m now => broadcastChatMessageStep m now st
  | .broadcastTranscript t now => broadcastTranscriptStep t now st
  | .broadcastFrame f now => broadcastFrameStep f now st
  | .summaryResolved r s now => summaryResolvedStep r s now st

/-- Run a sequence of hub events, accumulating the log of attempted
sends `(connection, message)` in order. -/
def runHub (st : HubState) : List HubOp → HubState × List (Nat × WireMsg)
  | [] => (st, [])
  | op :: rest =>
    let r1 := stepHub op st
    let r2 := runHub r1.1 rest
    (r2.1, r1.2 ++ r2.2)

/-- Messages of the log addressed to connection `c` satisfying `p`. -/
def countMsgsTo (c : Nat) (p : WireMsg → Bool) (log : List (Nat × WireMsg)) : Nat :=
  (log.filter (fun e => e.1 = c && p e.2)).length

/-! ## Generic lemmas about the helpers -/

theorem jsSliceLast_eq_reverse_take {α : Type} (n : Nat) (l : List α) :
    jsSliceLast n l = (l.reverse.take n).reverse := by
  rw [jsSliceLast, List.take_reverse, List.reverse_reverse]

theorem jsSliceLast_length_le {α : Type} (n : Nat) (l : List α) :
    (jsSliceLast n l).length ≤ n := by
  rw [jsSliceLast, List.length_drop]
  omega

theorem getAssoc_cons {κ α : Type} [DecidableEq κ] (e : κ × α)
    (l : List (κ × α)) (k : κ) :
    getAssoc (e :: l) k = if e.1 = k then some e.2 else getAssoc l k := by
  by_cases h : e.1 = k <;> simp [getAssoc, List.find?_cons, h]

theorem getAssoc_map_upd {κ α : Type} [DecidableEq κ] (k k' : κ) (a : α)
    (h : ¬ k' = k) (l : List (κ × α)) :
    getAssoc (l.map (fun e => if e.1 = k then (k, a) else e)) k' =
      getAssoc l k' := by
  induction l with
  | nil => rfl
  | cons e rest ih =>
    rw [List.map_cons, getAssoc_cons, getAssoc_cons]
    by_cases he : e.1 = k
    · rw [if_pos he]
      have h1 : ¬ ((k, a).1 = k') := fun hh => h hh.symm
      have h2 : ¬ (e.1 = k') := by
        rw [he]; exact fun hh => h hh.symm
      rw [if_neg h1, if_neg h2, ih]
    · rw [if_neg he]
      by_cases hk : e.1 = k'
      · rw [if_pos hk, if_pos hk]
      · rw [if_neg hk, if_neg hk, ih]

theorem getAssoc_map_upd_self {κ α : Type} [DecidableEq κ] (k : κ) (a : α)
    (l : List (κ × α)) (hany : l.any (fun e => e.1 = k) = true) :
    getAssoc (l.map (fun e => if e.1 = k then (k, a) else e)) k = some a := by
  induction l with
  | nil => simp at hany
  | cons e rest ih =>
    rw [List.map_cons, getAssoc_cons]
    by_cases he : e.1 = k
    · simp [he]
    · have h2 : ¬ ((if e.1 = k then (k, a) else e).1 = k) := by
        rw [if_neg he]; exact he
      rw [if_neg h2]
      apply ih
      simpa [List.any_cons, he] using hany

theorem getAssoc_setAssoc_self {κ α : Type} [DecidableEq κ] (l : List (κ × α))
    (k : κ) (a : α) : getAssoc (setAssoc l k a) k = some a := by
  unfold setAssoc
  by_cases hany : l.any (fun e => e.1 = k) = true
  · rw [if_pos hany]
    exact getAssoc_map_upd_self k a l hany
  · rw [if_neg hany]
    unfold getAssoc
    rw [List.find?_append]
    have h1 : l.find? (fun e => decide (e.1 = k)) = none := by
      rw [List.find?_eq_none]
      intro x hx
      simp only [List.any_eq_true, not_exists, not_and] at hany
      intro hxk
      exact hany x hx (by simp [hxk])
    simp [h1]

theorem getAssoc_setAssoc_other {κ α : Type} [DecidableEq κ] (l : List (κ × α))
    (k k' : κ) (a : α) (h : ¬ k' = k) :
    getAssoc (setAssoc l k a) k' = getAssoc l k' := by
  unfold setAssoc
  by_cases hany : l.any (fun e => e.1 = k) = true
  · rw [if_pos hany]
    exact getAssoc_map_upd k k' a h l
  · rw [if_neg hany]
    unfold getAssoc
    rw [List.find?_append]
    have h2 : List.find? (fun e => decide (e.1 = k')) [(k, a)] = none := by
      have hkk : ¬ (k = k') := fun hh => h hh.symm
      simp [List.find?_cons, hkk]
    rw [h2]
    cases hfind : l.find? (fun e => decide (e.1 = k')) <;> simp

theorem map_fst_setAssoc {κ α : Type} [DecidableEq κ] (l : List (κ × α))
    (k : κ) (a : α) :
    (setAssoc l k a).map Prod.fst =
      if l.any (fun e => e.1 = k) then l.map Prod.fst
      else l.map Prod.fst ++ [k] := by
  unfold setAssoc
  by_cases hany : l.any (fun e => e.1 = k) = true
  · rw [if_pos hany, if_pos hany, List.map_map]
    apply List.map_congr_left
    intro e _
    by_cases he : e.1 = k
    · simp [he]
    · simp [he]
  · rw [if_neg hany, if_neg hany]
    simp

theorem nodup_keys_setAssoc {κ α : Type} [DecidableEq κ] (l : List (κ × α))
    (k : κ) (a : α) (h : (l.map Prod.fst).Nodup) :
    ((setAssoc l k a).map Prod.fst).Nodup := by
  rw [map_fst_setAssoc]
  by_cases hany : l.any (fun e => e.1 = k) = true
  · rwa [if_pos hany]
  · rw [if_neg hany]
    rw [List.nodup_append]
    refine ⟨h, List.nodup_singleton k, ?_⟩
    intro x hx hk
    simp only [List.mem_singleton] at hk
    subst hk
    simp only [List.mem_map] at hx
    obtain ⟨e, he, hek⟩ := hx
    simp only [List.any_eq_true, not_exists, not_and] at hany
    exact hany e he (by simp [hek])

theorem mem_setAssoc {κ α : Type} [DecidableEq κ] {l : List (κ × α)}
    {k : κ} {a : α} {e : κ × α} (h : e ∈ setAssoc l k a) :
    e ∈ l ∨ e = (k, a) := by
  unfold setAssoc at h
  by_cases hany : l.any (fun x => x.1 = k) = true
  · rw [if_pos hany] at h
    simp only [List.mem_map] at h
    obtain ⟨x, hx, hxe⟩ := h
    by_cases hk : x.1 = k
    · rw [if_pos hk] at hxe
      right; exact hxe.symm
    · rw [if_neg hk] at hxe
      left; exact hxe ▸ hx
  · rw [if_neg hany] at h
    simpa using h

/-! ## Claim C8: snapshot embeds exactly the last 20 chat entries -/

/-- C8 (confirmed).  `snapshot()` returns the derived `StreamState`
whose embedded chat list is `recentChat.slice(-20)`: exactly the last
20 entries of the retained history (the whole history when it is
shorter), for every retained-history length.  The specification-side
description "the last 20 entries" is rendered as
`(reverse (take 20 (reverse history)))`, and the slice is proved equal
to it for every hub state; the bound `≤ 20` is also proved. -/
theorem snapshot_embeds_last20 (st : HubState) :
    (getStreamState st).recentChat = (st.recentChat.reverse.take 20).reverse ∧
    (getStreamState st).recentChat.length ≤ 20 := by
  constructor
  · exact jsSliceLast_eq_reverse_take 20 st.recentChat
  · exact jsSliceLast_length_le 20 st.recentChat

/-! ## Claim C4: single-flight summarizer with fallback -/

/-- C4 (confirmed).  The frame summarizer is single-flight with
fallback: (1) a `summarizeFrame` call arriving while another
summarization is in flight (`isSummarizing`, with the summarizer
enabled) returns the previous summary immediately, issues no new
describer request, and leaves the state untouched; (2) a call whose
describer request fails returns `lastSummary` and leaves it unchanged;
(3) along every event trace from a freshly constructed summarizer,
`lastSummary` is exactly the result of the most recent successful
describer completion, so the value returned on failure is the last
successful summary. -/
theorem summarizer_single_flight_fallback :
    (∀ st : FrameSummarizer, st.enabled = true → st.isSummarizing = true →
      summarizeFrameStart st = (SummarizeStart.immediate st.lastSummary, st)) ∧
    (∀ st : FrameSummarizer,
      (summarizeFrameFinish st none).1 = st.lastSummary ∧
      (summarizeFrameFinish st none).2.lastSummary = st.lastSummary) ∧
    (∀ (enabled : Bool) (events : List SumEvent),
      (runSummarizer (FrameSummarizer.init enabled) events).lastSummary =
        lastSuccessSpec events) := by
  refine ⟨?_, ?_, ?_⟩
  · intro st h1 h2
    simp [summarizeFrameStart, h1, h2]
  · intro st
    simp [summarizeFrameFinish]
  · intro enabled events
    have key : ∀ (evs : List SumEvent) (st : FrameSummarizer),
        (runSummarizer st evs).lastSummary =
          evs.foldl
            (fun acc e => match e with
              | .finish (some s) => s
              | _ => acc) st.lastSummary := by
      intro evs
      induction evs with
      | nil => intro st; rfl
      | cons e rest ih =>
        intro st
        have hstep : (stepSummarizer st e).lastSummary =
            (match e with
              | .finish (some s) => s
              | _ => st.lastSummary) := by
          cases e with
          | start =>
            cases h1 : st.enabled <;> cases h2 : st.isSummarizing <;>
              simp [stepSummarizer, summarizeFrameStart, h1, h2]
          | finish res =>
            cases res with
            | none => rfl
            | some s => rfl
        show (runSummarizer (stepSummarizer st e) rest).lastSummary = _
        rw [ih (stepSummarizer st e), hstep]
        cases e with
        | start => rfl
        | finish res => cases res <;> rfl
    rw [key events (FrameSummarizer.init enabled)]
    rfl

/-- Witness for C4 at a concrete in-flight state and a concrete failing
trace. -/
theorem summarizer_single_flight_fallback_witness :
    ((⟨true, true, "prev"⟩ : FrameSummarizer).enabled = true ∧
      (⟨true, true, "prev"⟩ : FrameSummarizer).isSummarizing = true) ∧
    summarizeFrameStart ⟨true, true, "prev"⟩ =
      (SummarizeStart.immediate "prev", ⟨true, true, "prev"⟩) ∧
    (runSummarizer (FrameSummarizer.init true)
        [.start, .finish (some "good"), .start, .finish none]).lastSummary =
      lastSuccessSpec [.start, .finish (some "good"), .start, .finish none] :=
  ⟨⟨rfl, rfl⟩,
   summarizer_single_flight_fallback.1 ⟨true, true, "prev"⟩ rfl rfl,
   summarizer_single_flight_fallback.2.2 true
     [.start, .finish (some "good"), .start, .finish none]⟩

/-! ## Claim C5: transcript coalescer flush -/

/-- C5 (confirmed).  For every non-empty buffer, `flushBuffer` joins
the buffered fragments with single spaces (and trims), clears the
buffer, nulls the pending-timer field, and emits exactly one
transcript event stamped with the flush-time timestamp — unless the
joined text is empty, in which case emission is skipped. -/
theorem flushBuffer_nonempty (st : CoalescerState) (now : Nat)
    (h : st.transcriptBuffer ≠ []) :
    (flushBuffer now st).1.transcriptBuffer = [] ∧
    (flushBuffer now st).1.bufferTimeout = none ∧
    (flushBuffer now st).2 =
      (if jsTrim (String.intercalate " " st.transcriptBuffer) = "" then []
       else [{ text := jsTrim (String.intercalate " " st.transcriptBuffer),
               timestamp := now }]) := by
  unfold flushBuffer
  rw [if_neg h]
  by_cases hc : jsTrim (String.intercalate " " st.transcriptBuffer) = ""
  · have hlen : (jsTrim (String.intercalate " " st.transcriptBuffer)).length = 0 := by
      rw [hc]; rfl
    simp [hlen, hc]
  · have hlen : (jsTrim (String.intercalate " " st.transcriptBuffer)).length > 0 := by
      cases hq : jsTrim (String.intercalate " " st.transcriptBuffer) with
      | mk data =>
        cases data with
        | nil => exact absurd hq hc
        | cons c cs => simp [String.length]
    simp [hlen, hc]

/-- Witness for C5: the spec's own scenario.  Fragments `"hello"` and
`"world"` are added within the debounce window (at 0 ms and 500 ms);
the debounce timer fires at 1500 ms and the flush emits exactly one
event with text `"hello world"` stamped with the flush time. -/
theorem flushBuffer_nonempty_witness :
    ((addToBuffer 500 "world" (addToBuffer 0 "hello" CoalescerState.init).1).1.transcriptBuffer
        ≠ []) ∧
    (timerFire 1500
        (addToBuffer 500 "world" (addToBuffer 0 "hello" CoalescerState.init).1).1).2 =
      [{ text := "hello world", timestamp := 1500 }] ∧
    (timerFire 1500
        (addToBuffer 500 "world" (addToBuffer 0 "hello" CoalescerState.init).1).1).1.transcriptBuffer
      = [] := by
  have h := flushBuffer_nonempty
    (addToBuffer 500 "world" (addToBuffer 0 "hello" CoalescerState.init).1).1 1500
    (by decide)
  refine ⟨by decide, ?_, h.1⟩
  exact h.2.2.trans (by decide)

/-! ## Claim C3: capture supervisor `stop()` -/

/-- C3 counterexample.  The claim — "for every call to stop(), stop()
returns only after every tracked subprocess has exited, with
SIGTERM→SIGKILL escalation, for both the video-frame and the audio
capture supervisor" — is false on the code at this concrete input.
Take a single tracked process, never signalled and still running, that
exits 100 ms after receiving SIGTERM.  `TwitchStreamCapture.stop`
(src/unnamed/part_001) sends the terminate signal and returns without
awaiting anything, i.e. at time 0, while the process has not exited at
time 0.  Moreover, for a process that ignores SIGTERM, the audio
supervisor's `killProcess` resolves at its unconditional 3000 ms
`setTimeout(cleanup, 3000)` with the process still running, and its
SIGKILL escalation never fires (the `!proc.killed` guard is already
false once SIGTERM was sent). -/
theorem captureStop_counterexample :
    (twitchCaptureStop [⟨false, false, some 100⟩]).1 = 0 ∧
    CaptureProc.exitedBy ⟨false, false, some 100⟩ 0 = false ∧
    killProcessResolveAt ⟨false, false, none⟩ = 3000 ∧
    CaptureProc.exitedBy ⟨false, false, none⟩ 3000 = false ∧
    killProcessSigkillSent ⟨false, false, none⟩ = false := by
  decide

/-- C3 (corrected).  What the code actually guarantees:
(1) the audio supervisor's `stop()` returns within the absolute
3000 ms cap (it awaits `Promise.all` of the per-process `killProcess`
promises, each capped by the unconditional `setTimeout(cleanup, 3000)`);
(2) the SIGTERM→SIGKILL escalation never fires, because
`proc.kill("SIGTERM")` already set `proc.killed`, which the
2-second timer's `!proc.killed` guard then reads as "already killed";
(3) for a not-yet-signalled, still-running process that exits within
the cap after receiving SIGTERM, `killProcess` resolves exactly at the
exit event, i.e. only after that process has exited;
(4) the video supervisor's `stop()` returns immediately (time 0),
without waiting for any tracked process to exit. -/
theorem captureStop_amended :
    (∀ procs : List CaptureProc, audioStopReturnAt procs ≤ 3000) ∧
    (∀ p : CaptureProc, killProcessSigkillSent p = false) ∧
    (∀ (p : CaptureProc) (d : Nat), p.killedFlag = false → p.exited = false →
      p.termExitDelay = some d → d ≤ 3000 →
      killProcessResolveAt p = d ∧
        p.exitedBy (killProcessResolveAt p) = true) ∧
    (∀ procs : List CaptureProc, (twitchCaptureStop procs).1 = 0) := by
  refine ⟨?_, ?_, ?_, ?_⟩
  · intro procs
    induction procs with
    | nil => simp [audioStopReturnAt]
    | cons p rest ih =>
      have hp : killProcessResolveAt p ≤ 3000 := by
        unfold killProcessResolveAt
        by_cases h : p.killedFlag || p.exited
        · simp [h]
        · cases hd : p.termExitDelay with
          | none => simp [h, hd]
          | some d =>
            simp only [h, hd, if_neg, Bool.not_eq_true]
            exact Nat.min_le_right d 3000
      simpa [audioStopReturnAt] using Nat.max_le.mpr ⟨hp, ih⟩
  · intro p
    unfold killProcessSigkillSent killedAfterTerm
    by_cases h : p.killedFlag || p.exited
    · simp [h]
    · simp [h]
  · intro p d h1 h2 h3 h4
    have hcond : (p.killedFlag || p.exited) = false := by simp [h1, h2]
    constructor
    · unfold killProcessResolveAt
      simp [hcond, h3, Nat.min_eq_left h4]
    · unfold killProcessResolveAt CaptureProc.exitedBy
      simp [hcond, h1, h2, h3, Nat.min_eq_left h4]
  · intro procs
    rfl

/-- Witness for C3's amended theorem: a cooperative process, not yet
signalled and still running, that exits 50 ms after SIGTERM — the audio
supervisor's `killProcess` resolves exactly at its exit. -/
theorem captureStop_amended_witness :
    ((50 : Nat) ≤ 3000) ∧
    (killProcessResolveAt ⟨false, false, some 50⟩ = 50 ∧
      CaptureProc.exitedBy ⟨false, false, some 50⟩
        (killProcessResolveAt ⟨false, false, some 50⟩) = true) :=
  ⟨by decide, captureStop_amended.2.2.1 ⟨false, false, some 50⟩ 50 rfl rfl rfl
    (by decide)⟩

/-! ## Fan-out characterization -/

/-- The fan-out pass keeps exactly the entries whose socket is open and
attempts one send of the serialized message to each of them, in
registry order. -/
theorem broadcastFold_spec (o : List Nat) (msg : WireMsg) (l : List (String × ConnectedClaw)) :
    broadcastFold o msg l =
      (l.filter (fun e => decide (e.2.conn ∈ o)),
       (l.filter (fun e => decide (e.2.conn ∈ o))).map (fun e => (e.2.conn, msg))) := by
  induction l with
  | nil => rfl
  | cons e rest ih =>
    unfold broadcastFold
    rw [ih]
    by_cases h : e.2.conn ∈ o
    · simp [List.filter_cons, h]
    · simp [List.filter_cons, h]

theorem hubBroadcast_claws (msg : WireMsg) (st : HubState) :
    (hubBroadcast msg st).1.connectedClaws =
      st.connectedClaws.filter (fun e => decide (e.2.conn ∈ st.openConns)) := by
  simp [hubBroadcast, broadcastFold_spec]

theorem hubBroadcast_sends (msg : WireMsg) (st : HubState) :
    (hubBroadcast msg st).2 =
      (st.connectedClaws.filter (fun e => decide (e.2.conn ∈ st.openConns))).map
        (fun e => (e.2.conn, msg)) := by
  simp [hubBroadcast, broadcastFold_spec]

/-! ## Claim C7: bounded FIFO chat history -/

/-- The chat payload carried by a hub operation, if any. -/
def chatPayload? : HubOp → Option ChatMessage
  | .broadcastChatMessage m _ => some m
  | _ => none

/-- The chat messages appended by a sequence of hub operations, in
order. -/
def chatPayloads (ops : List HubOp) : List ChatMessage :=
  ops.filterMap chatPayload?

/-- Only `broadcastChatMessage` touches `recentChat`, and it does so
through `pushChat`. -/
theorem stepHub_recentChat (op : HubOp) (st : HubState) :
    (stepHub op st).1.recentChat =
      (match chatPayload? op with
       | some m => pushChat st.recentChat m
       | none => st.recentChat) := by
  cases op with
  | connect c ip now => rfl
  | register c id name sid now =>
    show (registerStep c id name sid now st).1.recentChat = st.recentChat
    unfold registerStep
    dsimp only
    split
    · rfl
    · simp [broadcastStateStep, hubBroadcast]
  | ping c now => rfl
  | closeConn c now =>
    show (closeConnStep c now st).1.recentChat = st.recentChat
    unfold closeConnStep
    dsimp only
    split
    · rfl
    · simp [broadcastStateStep, hubBroadcast]
  | die c => rfl
  | setStreamLive b now =>
    show (setStreamLiveStep b now st).1.recentChat = st.recentChat
    unfold setStreamLiveStep
    dsimp only
    split
    · simp [broadcastStateStep, hubBroadcast]
    · split
      · simp [broadcastStateStep, hubBroadcast]
      · simp [broadcastStateStep, hubBroadcast]
  | broadcastChatMessage m now =>
    show (broadcastChatMessageStep m now st).1.recentChat = pushChat st.recentChat m
    simp [broadcastChatMessageStep, hubBroadcast]
  | broadcastTranscript t now =>
    show (broadcastTranscriptStep t now st).1.recentChat = st.recentChat
    simp [broadcastTranscriptStep, hubBroadcast]
  | broadcastFrame f now =>
    show (broadcastFrameStep f now st).1.recentChat = st.recentChat
    unfold broadcastFrameStep
    dsimp only
    split
    · rfl
    · simp [hubBroadcast]
  | summaryResolved r s now =>
    show (summaryResolvedStep r s now st).1.recentChat = st.recentChat
    unfold summaryResolvedStep
    dsimp only
    split
    · split
      · rfl
      · simp [hubBroadcast]
    · rfl

/-- One push-and-maybe-shift step maintains "the history is the last
`maxChatHistory` elements of the full insertion sequence". -/
theorem pushChat_slice (l : List ChatMessage) (m : ChatMessage) :
    pushChat (jsSliceLast maxChatHistory l) m =
      jsSliceLast maxChatHistory (l ++ [m]) := by
  unfold pushChat jsSliceLast
  dsimp only
  by_cases hn : l.length < maxChatHistory
  · have h0 : l.length - maxChatHistory = 0 := by omega
    have h2 : (l ++ [m]).length - maxChatHistory = 0 := by
      rw [List.length_append, List.length_singleton]
      omega
    rw [h0, h2, List.drop_zero, List.drop_zero]
    have hc : ¬ (maxChatHistory < (l ++ [m]).length) := by
      rw [List.length_append, List.length_singleton]
      omega
    rw [if_neg hc]
  · have hk : maxChatHistory ≤ l.length := Nat.le_of_not_lt hn
    have hm : 0 < maxChatHistory := by decide
    have hlen : (l.drop (l.length - maxChatHistory)).length = maxChatHistory := by
      rw [List.length_drop]; omega
    have hc : maxChatHistory < (l.drop (l.length - maxChatHistory) ++ [m]).length := by
      rw [List.length_append, hlen, List.length_singleton]
      omega
    have hne : l.drop (l.length - maxChatHistory) ≠ [] := by
      intro hh
      rw [hh] at hlen
      simp only [List.length_nil] at hlen
      simp [maxChatHistory] at hlen
    rw [if_pos hc, List.tail_append_of_ne_nil hne, ← List.drop_one,
      List.drop_drop]
    have hidx : (l ++ [m]).length - maxChatHistory =
        (l.length - maxChatHistory) + 1 := by
      rw [List.length_append, List.length_singleton]
      omega
    rw [hidx,
      List.drop_append_of_le_length
        (by omega : (l.length - maxChatHistory) + 1 ≤ l.length)]

theorem run_recentChat (ops : List HubOp) :
    ∀ (st : HubState) (l : List ChatMessage),
      st.recentChat = jsSliceLast maxChatHistory l →
      (runHub st ops).1.recentChat =
        jsSliceLast maxChatHistory (l ++ chatPayloads ops) := by
  induction ops with
  | nil =>
    intro st l h
    simpa [runHub, chatPayloads] using h
  | cons op rest ih =>
    intro st l h
    have hrun : (runHub st (op :: rest)).1 = (runHub (stepHub op st).1 rest).1 := by
      simp [runHub]
    rw [hrun]
    cases hop : chatPayload? op with
    | none =>
      have hstep : (stepHub op st).1.recentChat = st.recentChat := by
        rw [stepHub_recentChat, hop]
      have := ih (stepHub op st).1 l (hstep.trans h)
      rw [this]
      simp [chatPayloads, List.filterMap_cons, hop]
    | some m =>
      have hstep : (stepHub op st).1.recentChat = pushChat st.recentChat m := by
        rw [stepHub_recentChat, hop]
      have hst : (stepHub op st).1.recentChat =
          jsSliceLast maxChatHistory (l ++ [m]) := by
        rw [hstep, h, pushChat_slice]
      have := ih (stepHub op st).1 (l ++ [m]) hst
      rw [this]
      simp [chatPayloads, List.filterMap_cons, hop, List.append_assoc]

/-- C7 (confirmed).  For every sequence of hub operations starting from
a freshly constructed hub, the retained chat history is exactly the
last `maxChatHistory = 100` chat messages of the full insertion
sequence, in insertion order — so the history never exceeds the bound,
and when the bound would be exceeded the oldest entry is the one
evicted (FIFO). -/
theorem chatHistory_bounded_fifo (en : Bool) (sf : List Nat) (ops : List HubOp) :
    (runHub (initHub en sf) ops).1.recentChat =
      jsSliceLast maxChatHistory (chatPayloads ops) ∧
    (runHub (initHub en sf) ops).1.recentChat.length ≤ maxChatHistory := by
  have h := run_recentChat ops (initHub en sf) [] (by rfl)
  simp only [List.nil_append] at h
  exact ⟨h, h ▸ jsSliceLast_length_le maxChatHistory (chatPayloads ops)⟩

/-! ## Claim C1: `setStreamLive` on repeated identical calls -/

/-- Registered entries whose socket is open: the recipients of one
fan-out pass. -/
def openRegisteredCount (st : HubState) : Nat :=
  st.connectedClaws.countP (fun e => decide (e.2.conn ∈ st.openConns))

/-- Number of `state`-type messages in a send log. -/
def stateMsgCount (log : List (Nat × WireMsg)) : Nat :=
  log.countP (fun e => e.2.isState)

theorem broadcastState_state_count (now : Nat) (st : HubState) :
    stateMsgCount (broadcastStateStep now st).2 = openRegisteredCount st := by
  unfold stateMsgCount openRegisteredCount broadcastStateStep
  rw [hubBroadcast_sends, List.countP_map]
  have hcomp : ((fun (e : Nat × WireMsg) => e.2.isState) ∘
      (fun (e : String × ConnectedClaw) =>
        (e.2.conn, WireMsg.state (getStreamState st) now))) =
      (fun (_ : String × ConnectedClaw) => true) := by
    funext e
    rfl
  rw [hcomp, List.countP_true, ← List.countP_eq_length_filter]

/-- A trace that registers one claw before toggling liveness. -/
def livenessTracePre : List HubOp :=
  [.connect 0 "9.9.9.9" 1, .register 0 "a" "A" "" 2]

/-- `livenessTracePre` followed by two identical `setStreamLive(true)`
calls. -/
def livenessTrace : List HubOp :=
  livenessTracePre ++ [.setStreamLive true 3, .setStreamLive true 4]

/-- C1 counterexample.  The claim says a `setLiveness(true)` /
`setLiveness(true)` pair produces exactly one `state` broadcast,
"since state is re-broadcast only on an edge".  On the code,
`setStreamLive` calls `broadcastState()` unconditionally — on every
call, edge or not.  Concretely: a hub with one registered open claw
(which has already received 2 state messages: one at connection time,
one from the registration broadcast) receives 2 further state messages
from the two `setStreamLive(true)` calls — total 4, where the claim
predicts 3.  The parts of the claim about the timestamp do hold: the
second call leaves `streamStartedAt = some 3` unchanged. -/
theorem setLiveness_counterexample :
    countMsgsTo 0 WireMsg.isState (runHub (initHub false []) livenessTracePre).2 = 2 ∧
    countMsgsTo 0 WireMsg.isState (runHub (initHub false []) livenessTrace).2 = 4 ∧
    (runHub (initHub false []) livenessTrace).1.streamStartedAt = some 3 := by
  decide

/-- C1 (corrected).  `setLiveness(true)` twice from a non-live hub
state: liveness toggles only on the first (offline→online) edge and the
stream-start timestamp is set by the first call and left unchanged by
the second; but `broadcastState()` runs on every call regardless of
edge, so the pair performs two full state fan-out passes — each
delivering one `state` message per open registered connection — not
one. -/
theorem setStreamLive_true_edge (st : HubState) (t : Nat)
    (h : jsTruthyOptNat st.streamStartedAt = false) :
    setStreamLiveStep true t st =
      broadcastStateStep t { st with streamStartedAt := some t } := by
  have c1 : (true && !(jsTruthyOptNat st.streamStartedAt)) = true := by
    rw [h]; rfl
  unfold setStreamLiveStep
  dsimp only
  rw [if_pos c1]

theorem setStreamLive_true_noedge (st : HubState) (t : Nat)
    (h : jsTruthyOptNat st.streamStartedAt = true) :
    setStreamLiveStep true t st = broadcastStateStep t st := by
  have c1 : ¬ ((true && !(jsTruthyOptNat st.streamStartedAt)) = true) := by
    rw [h]; simp
  have c2 : ¬ ((!true && jsTruthyOptNat st.streamStartedAt) = true) := by
    simp
  unfold setStreamLiveStep
  dsimp only
  rw [if_neg c1, if_neg c2]

theorem setLiveness_repeated (st : HubState) (t1 t2 : Nat)
    (h0 : jsTruthyOptNat st.streamStartedAt = false) (h1 : t1 ≠ 0) :
    (setStreamLiveStep true t1 st).1.streamStartedAt = some t1 ∧
    (setStreamLiveStep true t2 (setStreamLiveStep true t1 st).1).1.streamStartedAt
      = some t1 ∧
    stateMsgCount (setStreamLiveStep true t1 st).2 = openRegisteredCount st ∧
    stateMsgCount (setStreamLiveStep true t2 (setStreamLiveStep true t1 st).1).2 =
      openRegisteredCount (setStreamLiveStep true t1 st).1 := by
  have hstep1 := setStreamLive_true_edge st t1 h0
  have hts1 : (setStreamLiveStep true t1 st).1.streamStartedAt = some t1 := by
    rw [hstep1]
    unfold broadcastStateStep hubBroadcast
    rfl
  have htruthy : jsTruthyOptNat (setStreamLiveStep true t1 st).1.streamStartedAt
      = true := by
    rw [hts1]
    simpa [jsTruthyOptNat] using h1
  have hstep2 := setStreamLive_true_noedge (setStreamLiveStep true t1 st).1 t2 htruthy
  refine ⟨hts1, ?_, ?_, ?_⟩
  · rw [hstep2]
    unfold broadcastStateStep hubBroadcast
    simpa using hts1
  · rw [hstep1, broadcastState_state_count]
    unfold openRegisteredCount
    rfl
  · rw [hstep2, broadcastState_state_count]

/-- Witness for C1's corrected theorem: the hub state reached by
`livenessTracePre` (one registered open claw, not yet live), toggled
live twice at times 3 and 4: the timestamp is `some 3` after both
calls, and each call's fan-out pass delivers exactly one state message
(one open registered connection). -/
theorem setLiveness_repeated_witness :
    (jsTruthyOptNat (runHub (initHub false []) livenessTracePre).1.streamStartedAt
        = false ∧ (3 : Nat) ≠ 0) ∧
    ((setStreamLiveStep true 3 (runHub (initHub false []) livenessTracePre).1).1.streamStartedAt
        = some 3 ∧
      (setStreamLiveStep true 4
          (setStreamLiveStep true 3
            (runHub (initHub false []) livenessTracePre).1).1).1.streamStartedAt
        = some 3 ∧
      stateMsgCount
          (setStreamLiveStep true 3 (runHub (initHub false []) livenessTracePre).1).2 =
        openRegisteredCount (runHub (initHub false []) livenessTracePre).1 ∧
      stateMsgCount
          (setStreamLiveStep true 4
            (setStreamLiveStep true 3
              (runHub (initHub false []) livenessTracePre).1).1).2 =
        openRegisteredCount
          (setStreamLiveStep true 3 (runHub (initHub false []) livenessTracePre).1).1) :=
  ⟨⟨by decide, by decide⟩,
   setLiveness_repeated (runHub (initHub false []) livenessTracePre).1 3 4
     (by decide) (by decide)⟩

/-! ## Claim C2: registry vs. open connections -/

theorem nodup_keys_filter {κ α : Type} (p : κ × α → Bool) (l : List (κ × α))
    (h : (l.map Prod.fst).Nodup) : ((l.filter p).map Prod.fst).Nodup :=
  List.Nodup.sublist (List.Sublist.map Prod.fst (List.filter_sublist l)) h

theorem nodup_keys_delAssoc {κ α : Type} [DecidableEq κ] (l : List (κ × α))
    (k : κ) (h : (l.map Prod.fst).Nodup) :
    ((delAssoc l k).map Prod.fst).Nodup := by
  unfold delAssoc
  exact nodup_keys_filter _ l h

theorem nodup_keys_hubBroadcast (m : WireMsg) (st : HubState)
    (h : (st.connectedClaws.map Prod.fst).Nodup) :
    ((hubBroadcast m st).1.connectedClaws.map Prod.fst).Nodup := by
  rw [hubBroadcast_claws]
  exact nodup_keys_filter _ st.connectedClaws h

theorem nodup_keys_broadcastState (now : Nat) (st : HubState)
    (h : (st.connectedClaws.map Prod.fst).Nodup) :
    ((broadcastStateStep now st).1.connectedClaws.map Prod.fst).Nodup :=
  nodup_keys_hubBroadcast _ st h

/-- Every single hub operation preserves distinctness of the registry's
claw ids (JS `Map` semantics: re-registration replaces in place). -/
theorem stepHub_nodup_keys (op : HubOp) (st : HubState)
    (h : (st.connectedClaws.map Prod.fst).Nodup) :
    ((stepHub op st).1.connectedClaws.map Prod.fst).Nodup := by
  cases op with
  | connect c ip now => exact h
  | register c id name sid now =>
    show ((registerStep c id name sid now st).1.connectedClaws.map Prod.fst).Nodup
    unfold registerStep
    dsimp only
    split
    · exact h
    · exact nodup_keys_broadcastState _ _ (nodup_keys_setAssoc _ _ _ h)
  | ping c now =>
    show ((pingStep c now st).1.connectedClaws.map Prod.fst).Nodup
    unfold pingStep
    dsimp only
    split
    · exact h
    · exact nodup_keys_setAssoc _ _ _ h
  | closeConn c now =>
    show ((closeConnStep c now st).1.connectedClaws.map Prod.fst).Nodup
    unfold closeConnStep
    dsimp only
    split
    · exact h
    · exact nodup_keys_broadcastState _ _ (nodup_keys_delAssoc _ _ h)
  | die c => exact h
  | setStreamLive b now =>
    show ((setStreamLiveStep b now st).1.connectedClaws.map Prod.fst).Nodup
    unfold setStreamLiveStep
    dsimp only
    split
    · exact nodup_keys_broadcastState _ _ h
    · split
      · exact nodup_keys_broadcastState _ _ h
      · exact nodup_keys_broadcastState _ _ h
  | broadcastChatMessage m now =>
    exact nodup_keys_hubBroadcast _ _ h
  | broadcastTranscript t now =>
    exact nodup_keys_hubBroadcast _ _ h
  | broadcastFrame f now =>
    show ((broadcastFrameStep f now st).1.connectedClaws.map Prod.fst).Nodup
    unfold broadcastFrameStep
    dsimp only
    split
    · exact h
    · exact nodup_keys_hubBroadcast _ _ h
  | summaryResolved r sres now =>
    show ((summaryResolvedStep r sres now st).1.connectedClaws.map Prod.fst).Nodup
    unfold summaryResolvedStep
    dsimp only
    split
    · split
      · exact h
      · exact nodup_keys_hubBroadcast _ _ h
    · exact h

theorem runHub_nodup_keys (ops : List HubOp) :
    ∀ st : HubState, (st.connectedClaws.map Prod.fst).Nodup →
      ((runHub st ops).1.connectedClaws.map Prod.fst).Nodup := by
  induction ops with
  | nil => intro st h; exact h
  | cons op rest ih =>
    intro st h
    have hrun : (runHub st (op :: rest)).1 = (runHub (stepHub op st).1 rest).1 := by
      simp [runHub]
    rw [hrun]
    exact ih _ (stepHub_nodup_keys op st h)

/-- C2 (corrected, main part).  (1) From a fresh hub, every operation
sequence leaves the registry's claw ids distinct — re-registration with
the same id replaces the entry in place, never duplicating it.
(2) A fan-out pass keeps exactly the entries whose connection is open
(non-open entries are removed during that same pass) — so immediately
after a fan-out pass the participant count equals the number of
currently-open registered connections, and a dead connection survives
no longer than the next fan-out pass.  (3) Processing a connection's
close event removes every registry entry bound to that connection
(the first by deletion, any others by the pruning inside the
state re-broadcast). -/
theorem registry_invariants :
    (∀ (en : Bool) (sf : List Nat) (ops : List HubOp),
      (((runHub (initHub en sf) ops).1.connectedClaws.map Prod.fst).Nodup)) ∧
    (∀ (st : HubState) (msg : WireMsg),
      (hubBroadcast msg st).1.connectedClaws =
        st.connectedClaws.filter (fun e => decide (e.2.conn ∈ st.openConns)) ∧
      (hubBroadcast msg st).1.connectedClaws.length =
        st.connectedClaws.countP (fun e => decide (e.2.conn ∈ st.openConns))) ∧
    (∀ (st : HubState) (c now : Nat),
      ((closeConnStep c now st).1.connectedClaws.all
        (fun e => e.2.conn ≠ c)) = true) := by
  refine ⟨?_, ?_, ?_⟩
  · intro en sf ops
    exact runHub_nodup_keys ops (initHub en sf) (by simp [initHub])
  · intro st msg
    refine ⟨hubBroadcast_claws msg st, ?_⟩
    rw [hubBroadcast_claws, List.countP_eq_length_filter]
  · intro st c now
    rw [List.all_eq_true]
    intro e he
    simp only [decide_eq_true_eq]
    revert he
    show e ∈ (closeConnStep c now st).1.connectedClaws → ¬ e.2.conn = c
    unfold closeConnStep
    dsimp only
    split
    · intro he hc
      rename_i hfind
      rw [List.find?_eq_none] at hfind
      exact hfind e he (by simp [hc])
    · intro he hc
      rw [show (broadcastStateStep now _).1.connectedClaws =
            _ from hubBroadcast_claws _ _] at he
      rw [List.mem_filter] at he
      have hopen : e.2.conn ∈ st.openConns.filter (fun o => decide (o ≠ c)) := by
        simpa using he.2
      rw [List.mem_filter] at hopen
      have : (decide (e.2.conn ≠ c)) = true := hopen.2
      simp only [decide_eq_true_eq] at this
      exact this hc

/-- The chat message used in the write-failure trace. -/
def chatMsgW : ChatMessage :=
  { timestamp := 3, username := "u", displayName := "U", message := "hi",
    channel := "ch", isMod := false, isSubscriber := false }

/-- A trace in which claw "a" registers over connection 0 — whose
transport `send` fails — and a chat fan-out pass then runs. -/
def writeFailTrace : List HubOp :=
  [.connect 0 "9.9.9.9" 1, .register 0 "a" "A" "" 2,
   .broadcastChatMessage chatMsgW 3]

/-- C2 counterexample.  The claim says "a write failure or non-open
connection state causes immediate removal during that same pass".  On
the code, `broadcast` checks only `ws.readyState === OPEN` and calls
`ws.send` without a callback, ignoring its outcome (transport errors
surface on the socket's `error` event, whose handler only logs).  In
the run below, connection 0 is open but its transport send fails
(`sendFails = [0]`); the chat fan-out pass attempts the send and the
claw's registry entry is retained — not removed. -/
theorem writeFailure_no_removal :
    ((runHub (initHub false [0]) writeFailTrace).1.connectedClaws.map Prod.fst)
      = ["a"] ∧
    0 ∈ (initHub false [0]).sendFails ∧
    0 ∈ (runHub (initHub false [0]) writeFailTrace).1.openConns ∧
    countMsgsTo 0 WireMsg.isChat (runHub (initHub false [0]) writeFailTrace).2 = 1 := by
  decide

/-! ## Claim C6: metrics monotonicity -/

/-- The cumulative per-address counter read off the hub state. -/
def ipCount (st : HubState) (ip : String) : Nat :=
  (getAssoc st.connectionsByIP ip).getD 0

/-- Only a new connection touches `totalConnectionsEver` (incrementing
it). -/
theorem stepHub_total (op : HubOp) (st : HubState) :
    (stepHub op st).1.totalConnectionsEver =
      (match op with
       | .connect _ _ _ => st.totalConnectionsEver + 1
       | _ => st.totalConnectionsEver) := by
  cases op with
  | connect c ip now => rfl
  | register c id name sid now =>
    show (registerStep c id name sid now st).1.totalConnectionsEver
      = st.totalConnectionsEver
    unfold registerStep
    dsimp only
    split
    · rfl
    · simp [broadcastStateStep, hubBroadcast]
  | ping c now => rfl
  | closeConn c now =>
    show (closeConnStep c now st).1.totalConnectionsEver = st.totalConnectionsEver
    unfold closeConnStep
    dsimp only
    split
    · rfl
    · simp [broadcastStateStep, hubBroadcast]
  | die c => rfl
  | setStreamLive b now =>
    show (setStreamLiveStep b now st).1.totalConnectionsEver
      = st.totalConnectionsEver
    unfold setStreamLiveStep
    dsimp only
    split
    · simp [broadcastStateStep, hubBroadcast]
    · split
      · simp [broadcastStateStep, hubBroadcast]
      · simp [broadcastStateStep, hubBroadcast]
  | broadcastChatMessage m now =>
    simp [stepHub, broadcastChatMessageStep, hubBroadcast]
  | broadcastTranscript t now =>
    simp [stepHub, broadcastTranscriptStep, hubBroadcast]
  | broadcastFrame f now =>
    show (broadcastFrameStep f now st).1.totalConnectionsEver
      = st.totalConnectionsEver
    unfold broadcastFrameStep
    dsimp only
    split
    · rfl
    · simp [hubBroadcast]
  | summaryResolved r sres now =>
    show (summaryResolvedStep r sres now st).1.totalConnectionsEver
      = st.totalConnectionsEver
    unfold summaryResolvedStep
    dsimp only
    split
    · split
      · rfl
      · simp [hubBroadcast]
    · rfl

/-- Only a new connection touches `connectionsByIP` (bumping that
address's counter). -/
theorem stepHub_ipmap (op : HubOp) (st : HubState) :
    (stepHub op st).1.connectionsByIP =
      (match op with
       | .connect _ ip _ =>
         setAssoc st.connectionsByIP ip ((getAssoc st.connectionsByIP ip).getD 0 + 1)
       | _ => st.connectionsByIP) := by
  cases op with
  | connect c ip now => rfl
  | register c id name sid now =>
    show (registerStep c id name sid now st).1.connectionsByIP
      = st.connectionsByIP
    unfold registerStep
    dsimp only
    split
    · rfl
    · simp [broadcastStateStep, hubBroadcast]
  | ping c now => rfl
  | closeConn c now =>
    show (closeConnStep c now st).1.connectionsByIP = st.connectionsByIP
    unfold closeConnStep
    dsimp only
    split
    · rfl
    · simp [broadcastStateStep, hubBroadcast]
  | die c => rfl
  | setStreamLive b now =>
    show (setStreamLiveStep b now st).1.connectionsByIP = st.connectionsByIP
    unfold setStreamLiveStep
    dsimp only
    split
    · simp [broadcastStateStep, hubBroadcast]
    · split
      · simp [broadcastStateStep, hubBroadcast]
      · simp [broadcastStateStep, hubBroadcast]
  | broadcastChatMessage m now =>
    simp [stepHub, broadcastChatMessageStep, hubBroadcast]
  | broadcastTranscript t now =>
    simp [stepHub, broadcastTranscriptStep, hubBroadcast]
  | broadcastFrame f now =>
    show (broadcastFrameStep f now st).1.connectionsByIP = st.connectionsByIP
    unfold broadcastFrameStep
    dsimp only
    split
    · rfl
    · simp [hubBroadcast]
  | summaryResolved r sres now =>
    show (summaryResolvedStep r sres now st).1.connectionsByIP
      = st.connectionsByIP
    unfold summaryResolvedStep
    dsimp only
    split
    · split
      · rfl
      · simp [hubBroadcast]
    · rfl

theorem ipCount_step_mono (op : HubOp) (st : HubState) (ip : String) :
    ipCount st ip ≤ ipCount (stepHub op st).1 ip := by
  unfold ipCount
  rw [stepHub_ipmap]
  cases op with
  | connect c ip0 now =>
    show (getAssoc st.connectionsByIP ip).getD 0 ≤
      (getAssoc (setAssoc st.connectionsByIP ip0
        ((getAssoc st.connectionsByIP ip0).getD 0 + 1)) ip).getD 0
    by_cases h : ip = ip0
    · subst h
      rw [getAssoc_setAssoc_self]
      simp
    · rw [getAssoc_setAssoc_other _ _ _ _ h]
  | register c id name sid now => exact Nat.le_refl _
  | ping c now => exact Nat.le_refl _
  | closeConn c now => exact Nat.le_refl _
  | die c => exact Nat.le_refl _
  | setStreamLive b now => exact Nat.le_refl _
  | broadcastChatMessage m now => exact Nat.le_refl _
  | broadcastTranscript t now => exact Nat.le_refl _
  | broadcastFrame f now => exact Nat.le_refl _
  | summaryResolved r sres now => exact Nat.le_refl _

theorem total_step_mono (op : HubOp) (st : HubState) :
    st.totalConnectionsEver ≤ (stepHub op st).1.totalConnectionsEver := by
  rw [stepHub_total]
  cases op <;> simp

/-- C6 (corrected, main part).  Across every sequence of hub
operations, the cumulative metrics components never decrease: the
cumulative connection count (`totalConnections`) and every per-address
connection counter (`connectionsByIP`) are monotonically
non-decreasing.  (The distinct-address list and the current
local/foreign counts are derived from the live registry and are NOT
monotone — see the counterexample.) -/
theorem metrics_cumulative_monotone (st : HubState) (ops : List HubOp) :
    (getMetrics st).totalConnections ≤
      (getMetrics (runHub st ops).1).totalConnections ∧
    (∀ ip : String,
      (getAssoc (getMetrics st).connectionsByIP ip).getD 0 ≤
        (getAssoc (getMetrics (runHub st ops).1).connectionsByIP ip).getD 0) := by
  show st.totalConnectionsEver ≤ (runHub st ops).1.totalConnectionsEver ∧
    ∀ ip, ipCount st ip ≤ ipCount (runHub st ops).1 ip
  induction ops generalizing st with
  | nil => exact ⟨Nat.le_refl _, fun ip => Nat.le_refl _⟩
  | cons op rest ih =>
    have hrun : (runHub st (op :: rest)).1 = (runHub (stepHub op st).1 rest).1 := by
      simp [runHub]
    rw [hrun]
    obtain ⟨h1, h2⟩ := ih (stepHub op st).1
    exact ⟨Nat.le_trans (total_step_mono op st) h1,
      fun ip => Nat.le_trans (ipCount_step_mono op st ip) (h2 ip)⟩

/-- A trace that connects and registers claw "a" from address
9.9.9.9. -/
def ipTracePre : List HubOp :=
  [.connect 0 "9.9.9.9" 1, .register 0 "a" "A" "" 2]

/-- `ipTracePre` followed by that claw's disconnect. -/
def ipTraceFull : List HubOp := ipTracePre ++ [.closeConn 0 3]

/-- C6 counterexample.  The claim says the set of distinct origin
addresses seen is monotonically non-decreasing ("never loses an
address").  On the code, `getMetrics` computes `uniqueIPs` from the
*current* participants (`[...new Set(participants.map(p =>
p.ipAddress))]`), not from a cumulative set: after the only claw from
9.9.9.9 disconnects, the address disappears from `uniqueIPs` — while
the cumulative `connectionsByIP` map still records it. -/
theorem uniqueIPs_lose_address :
    (getMetrics (runHub (initHub false []) ipTracePre).1).uniqueIPs = ["9.9.9.9"] ∧
    (getMetrics (runHub (initHub false []) ipTraceFull).1).uniqueIPs = [] ∧
    (getAssoc (getMetrics (runHub (initHub false []) ipTraceFull).1).connectionsByIP
        "9.9.9.9").getD 0 = 1 := by
  decide

/-! ## Claim C9: fan-out reaches only registered connections -/

/-- Whether an operation is a register handshake arriving over
connection `c`. -/
def isRegisterConn (c : Nat) : HubOp → Bool
  | .register c' _ _ _ _ => c' = c
  | _ => false

/-- Whether an operation is a new connection event for `c`. -/
def isConnectOf (c : Nat) : HubOp → Bool
  | .connect c' _ _ => c' = c
  | _ => false

/-- Whether an operation is a ping from `c`. -/
def isPingOf (c : Nat) : HubOp → Bool
  | .ping c' _ => c' = c
  | _ => false

/-- No registry entry is bound to connection `c`. -/
def noConn (c : Nat) (st : HubState) : Prop :=
  ∀ e ∈ st.connectedClaws, e.2.conn ≠ c

theorem countMsgsTo_append (c : Nat) (p : WireMsg → Bool)
    (a b : List (Nat × WireMsg)) :
    countMsgsTo c p (a ++ b) = countMsgsTo c p a + countMsgsTo c p b := by
  unfold countMsgsTo
  rw [List.filter_append, List.length_append]

/-- A fan-out pass over a registry with no entry bound to `c` sends
nothing to `c`. -/
theorem hubBroadcast_no_sends_to (c : Nat) (p : WireMsg → Bool) (m : WireMsg)
    (st : HubState) (h : noConn c st) :
    countMsgsTo c p (hubBroadcast m st).2 = 0 := by
  rw [hubBroadcast_sends]
  unfold countMsgsTo
  rw [← List.countP_eq_length_filter, List.countP_map]
  rw [List.countP_eq_zero]
  intro e he
  have he' := List.mem_of_mem_filter he
  have hne := h e he'
  show ¬ ((fun x : Nat × WireMsg => decide (x.1 = c) && p x.2)
    ((fun e : String × ConnectedClaw => (e.2.conn, m)) e)) = true
  simp only [Function.comp]
  simp [hne]

theorem broadcastState_no_sends_to (c : Nat) (p : WireMsg → Bool) (now : Nat)
    (st : HubState) (h : noConn c st) :
    countMsgsTo c p (broadcastStateStep now st).2 = 0 :=
  hubBroadcast_no_sends_to c p _ st h

theorem noConn_filter (c : Nat) (q : (String × ConnectedClaw) → Bool)
    (l : List (String × ConnectedClaw)) (h : ∀ e ∈ l, e.2.conn ≠ c) :
    ∀ e ∈ l.filter q, e.2.conn ≠ c :=
  fun e he => h e (List.mem_of_mem_filter he)

theorem noConn_hubBroadcast (c : Nat) (m : WireMsg) (st : HubState)
    (h : ∀ e ∈ st.connectedClaws, e.2.conn ≠ c) :
    noConn c (hubBroadcast m st).1 := by
  intro e he
  rw [hubBroadcast_claws] at he
  exact h e (List.mem_of_mem_filter he)

/-- Every operation that is not a register handshake over `c` preserves
"no registry entry is bound to `c`". -/
theorem stepHub_noConn (c : Nat) (op : HubOp) (st : HubState)
    (h : noConn c st) (hop : isRegisterConn c op = false) :
    noConn c (stepHub op st).1 := by
  cases op with
  | connect c' ip now => exact h
  | register c' id name sid now =>
    have hcc : ¬ (c' = c) := by
      simpa [isRegisterConn] using hop
    show noConn c (registerStep c' id name sid now st).1
    unfold registerStep
    dsimp only
    split
    · exact h
    · unfold broadcastStateStep
      apply noConn_hubBroadcast
      intro e he
      rcases mem_setAssoc he with hmem | heq
      · exact h e hmem
      · rw [heq]
        exact hcc
  | ping c' now =>
    show noConn c (pingStep c' now st).1
    unfold pingStep
    dsimp only
    intro e he
    revert he
    split
    · intro he
      exact h e he
    · rename_i e0 hfind
      intro he
      rcases mem_setAssoc he with hmem | heq
      · exact h e hmem
      · rw [heq]
        exact h e0 (List.mem_of_find?_eq_some hfind)
  | closeConn c' now =>
    show noConn c (closeConnStep c' now st).1
    unfold closeConnStep
    dsimp only
    split
    · exact h
    · unfold broadcastStateStep
      apply noConn_hubBroadcast
      intro e he
      exact h e (List.mem_of_mem_filter he)
  | die c' => exact h
  | setStreamLive b now =>
    show noConn c (setStreamLiveStep b now st).1
    unfold setStreamLiveStep
    dsimp only
    split
    · unfold broadcastStateStep
      apply noConn_hubBroadcast
      exact h
    · split
      · unfold broadcastStateStep
        apply noConn_hubBroadcast
        exact h
      · unfold broadcastStateStep
        apply noConn_hubBroadcast
        exact h
  | broadcastChatMessage m now =>
    show noConn c (broadcastChatMessageStep m now st).1
    unfold broadcastChatMessageStep
    apply noConn_hubBroadcast
    exact h
  | broadcastTranscript t now =>
    show noConn c (broadcastTranscriptStep t now st).1
    unfold broadcastTranscriptStep
    apply noConn_hubBroadcast
    exact h
  | broadcastFrame f now =>
    show noConn c (broadcastFrameStep f now st).1
    unfold broadcastFrameStep
    dsimp only
    split
    · exact h
    · apply noConn_hubBroadcast
      exact h
  | summaryResolved r sres now =>
    show noConn c (summaryResolvedStep r sres now st).1
    unfold summaryResolvedStep
    dsimp only
    split
    · split
      · exact h
      · apply noConn_hubBroadcast
        exact h
    · exact h

theorem countMsgsTo_nil (c : Nat) (p : WireMsg → Bool) :
    countMsgsTo c p [] = 0 := rfl

/-- Per-operation send counts towards an unregistered connection `c`:
one `state` message for `c`'s own connection event, one `pong` for each
of `c`'s pings, and nothing else — fan-out passes address only registry
entries, none of which is bound to `c`. -/
theorem stepHub_counts (c : Nat) (op : HubOp) (st : HubState)
    (h : noConn c st) (hop : isRegisterConn c op = false) :
    countMsgsTo c WireMsg.isState (stepHub op st).2 =
      (if isConnectOf c op then 1 else 0) ∧
    countMsgsTo c WireMsg.isPong (stepHub op st).2 =
      (if isPingOf c op then 1 else 0) ∧
    countMsgsTo c WireMsg.isFrame (stepHub op st).2 = 0 ∧
    countMsgsTo c WireMsg.isChat (stepHub op st).2 = 0 ∧
    countMsgsTo c WireMsg.isTranscript (stepHub op st).2 = 0 := by
  cases op with
  | connect c' ip now =>
    simp only [stepHub]
    unfold connectStep
    dsimp only
    by_cases hcc : c' = c <;>
      simp [countMsgsTo, List.filter, WireMsg.isState, WireMsg.isPong,
        WireMsg.isFrame, WireMsg.isChat, WireMsg.isTranscript,
        isConnectOf, isPingOf, hcc]
  | register c' id name sid now =>
    have hcc : ¬ (c' = c) := by
      simpa [isRegisterConn] using hop
    simp only [stepHub]
    unfold registerStep
    dsimp only
    split
    · simp [countMsgsTo_nil, isConnectOf, isPingOf]
    · have hcl : noConn c
          { st with
            pendingConnections := delAssoc st.pendingConnections c',
            connectedClaws := setAssoc st.connectedClaws id
              ⟨c', { id := id, name := name, sessionId := sid, joinedAt := now,
                     lastSeen := now,
                     ipAddress := (getAssoc st.pendingConnections c').getD "unknown",
                     isLocal := classifyLocal
                       ((getAssoc st.pendingConnections c').getD "unknown") }⟩ } := by
        intro e he
        rcases mem_setAssoc he with hmem | heq
        · exact h e hmem
        · rw [heq]
          exact hcc
      refine ⟨?_, ?_, ?_, ?_, ?_⟩ <;>
        exact broadcastState_no_sends_to c _ now _ hcl
  | ping c' now =>
    simp only [stepHub]
    unfold pingStep
    dsimp only
    by_cases hcc : c' = c <;>
      simp [countMsgsTo, List.filter, WireMsg.isState, WireMsg.isPong,
        WireMsg.isFrame, WireMsg.isChat, WireMsg.isTranscript,
        isConnectOf, isPingOf, hcc]
  | closeConn c' now =>
    simp only [stepHub]
    unfold closeConnStep
    dsimp only
    split
    · simp [countMsgsTo_nil, isConnectOf, isPingOf]
    · rename_i e0 hfind
      refine ⟨?_, ?_, ?_, ?_, ?_⟩ <;>
        exact broadcastState_no_sends_to c _ now _
          (fun e he => h e (List.mem_of_mem_filter he))
  | die c' =>
    simp [stepHub, dieStep, countMsgsTo_nil, isConnectOf, isPingOf]
  | setStreamLive b now =>
    simp only [stepHub]
    unfold setStreamLiveStep
    dsimp only
    split
    · refine ⟨?_, ?_, ?_, ?_, ?_⟩ <;>
        exact broadcastState_no_sends_to c _ now _ (fun e he => h e he)
    · split
      · refine ⟨?_, ?_, ?_, ?_, ?_⟩ <;>
          exact broadcastState_no_sends_to c _ now _ (fun e he => h e he)
      · refine ⟨?_, ?_, ?_, ?_, ?_⟩ <;>
          exact broadcastState_no_sends_to c _ now _ (fun e he => h e he)
  | broadcastChatMessage m now =>
    simp only [stepHub]
    unfold broadcastChatMessageStep
    refine ⟨?_, ?_, ?_, ?_, ?_⟩ <;>
      exact hubBroadcast_no_sends_to c _ _ _ (fun e he => h e he)
  | broadcastTranscript t now =>
    simp only [stepHub]
    unfold broadcastTranscriptStep
    refine ⟨?_, ?_, ?_, ?_, ?_⟩ <;>
      exact hubBroadcast_no_sends_to c _ _ _ (fun e he => h e he)
  | broadcastFrame f now =>
    simp only [stepHub]
    unfold broadcastFrameStep
    dsimp only
    split
    · simp [countMsgsTo_nil, isConnectOf, isPingOf]
    · refine ⟨?_, ?_, ?_, ?_, ?_⟩ <;>
        exact hubBroadcast_no_sends_to c _ _ _ (fun e he => h e he)
  | summaryResolved r sres now =>
    simp only [stepHub]
    unfold summaryResolvedStep
    dsimp only
    split
    · split
      · simp [countMsgsTo_nil, isConnectOf, isPingOf]
      · refine ⟨?_, ?_, ?_, ?_, ?_⟩ <;>
          exact hubBroadcast_no_sends_to c _ _ _ (fun e he => h e he)
    · simp [countMsgsTo_nil, isConnectOf, isPingOf]

theorem runHub_counts (c : Nat) (ops : List HubOp) :
    ∀ st : HubState, noConn c st →
      (∀ op ∈ ops, isRegisterConn c op = false) →
      countMsgsTo c WireMsg.isState (runHub st ops).2 =
        ops.countP (isConnectOf c) ∧
      countMsgsTo c WireMsg.isPong (runHub st ops).2 =
        ops.countP (isPingOf c) ∧
      countMsgsTo c WireMsg.isFrame (runHub st ops).2 = 0 ∧
      countMsgsTo c WireMsg.isChat (runHub st ops).2 = 0 ∧
      countMsgsTo c WireMsg.isTranscript (runHub st ops).2 = 0 := by
  induction ops with
  | nil =>
    intro st _ _
    simp [runHub, countMsgsTo_nil]
  | cons op rest ih =>
    intro st h hops
    have hop : isRegisterConn c op = false := hops op (List.mem_cons_self op rest)
    have hrest : ∀ o ∈ rest, isRegisterConn c o = false :=
      fun o ho => hops o (List.mem_cons_of_mem op ho)
    have hsplit : (runHub st (op :: rest)).2 =
        (stepHub op st).2 ++ (runHub (stepHub op st).1 rest).2 := by
      simp [runHub]
    obtain ⟨s1, p1, f1, ch1, t1⟩ := stepHub_counts c op st h hop
    obtain ⟨s2, p2, f2, ch2, t2⟩ :=
      ih (stepHub op st).1 (stepHub_noConn c op st h hop) hrest
    rw [hsplit]
    refine ⟨?_, ?_, ?_, ?_, ?_⟩ <;>
      rw [countMsgsTo_append] <;>
      simp [s1, p1, f1, ch1, t1, s2, p2, f2, ch2, t2, List.countP_cons]
    · by_cases hc : isConnectOf c op = true <;> simp [hc, Nat.add_comm]
    · by_cases hc : isPingOf c op = true <;> simp [hc, Nat.add_comm]

/-- C9 (confirmed).  An open WebSocket that connects but never
completes a register handshake receives exactly one `state` message —
the one sent directly to it at connection time — and no frame, chat,
transcript, or further state broadcasts, no matter what other
operations (registrations of other claws, chat/frame/transcript
fan-outs, liveness toggles) occur; each of its pings is still answered
with exactly one `pong`. -/
theorem unregistered_gets_single_state (en : Bool) (sf : List Nat) (c : Nat)
    (ops : List HubOp)
    (hreg : ∀ op ∈ ops, isRegisterConn c op = false)
    (hconn : ops.countP (isConnectOf c) = 1) :
    countMsgsTo c WireMsg.isState (runHub (initHub en sf) ops).2 = 1 ∧
    countMsgsTo c WireMsg.isFrame (runHub (initHub en sf) ops).2 = 0 ∧
    countMsgsTo c WireMsg.isChat (runHub (initHub en sf) ops).2 = 0 ∧
    countMsgsTo c WireMsg.isTranscript (runHub (initHub en sf) ops).2 = 0 ∧
    countMsgsTo c WireMsg.isPong (runHub (initHub en sf) ops).2 =
      ops.countP (isPingOf c) := by
  have h0 : noConn c (initHub en sf) := by
    intro e he
    simp [initHub] at he
  obtain ⟨hs, hp, hf, hch, ht⟩ := runHub_counts c ops (initHub en sf) h0 hreg
  exact ⟨hs.trans hconn, hf, hch, ht, hp⟩

/-- The chat message used in the unregistered-connection trace. -/
def chatMsgU : ChatMessage :=
  { timestamp := 5, username := "v", displayName := "V", message := "yo",
    channel := "ch", isMod := false, isSubscriber := false }

/-- A trace where connection 7 connects and pings but never registers,
while connection 8 registers and traffic is fanned out. -/
def unregisteredTrace : List HubOp :=
  [.connect 7 "8.8.8.8" 1, .connect 8 "9.9.9.9" 2, .register 8 "b" "B" "" 3,
   .ping 7 4, .broadcastChatMessage chatMsgU 5, .setStreamLive true 6]

/-- Witness for C9: in `unregisteredTrace`, connection 7 receives
exactly one state message, zero frame/chat/transcript messages, and
one pong. -/
theorem unregistered_gets_single_state_witness :
    ((∀ op ∈ unregisteredTrace, isRegisterConn 7 op = false) ∧
      unregisteredTrace.countP (isConnectOf 7) = 1) ∧
    (countMsgsTo 7 WireMsg.isState
        (runHub (initHub false []) unregisteredTrace).2 = 1 ∧
      countMsgsTo 7 WireMsg.isFrame
        (runHub (initHub false []) unregisteredTrace).2 = 0 ∧
      countMsgsTo 7 WireMsg.isChat
        (runHub (initHub false []) unregisteredTrace).2 = 0 ∧
      countMsgsTo 7 WireMsg.isTranscript
        (runHub (initHub false []) unregisteredTrace).2 = 0 ∧
      countMsgsTo 7 WireMsg.isPong
        (runHub (initHub false []) unregisteredTrace).2 =
        unregisteredTrace.countP (isPingOf 7)) :=
  ⟨⟨by decide, by decide⟩,
   unregistered_gets_single_state false [] 7 unregisteredTrace
     (by decide) (by decide)⟩

/-! ## Claim C10: synchronous frame install, asynchronous summary -/

theorem hubBroadcast_frameHeap (m : WireMsg) (st : HubState) :
    (hubBroadcast m st).1.frameHeap = st.frameHeap := rfl

theorem hubBroadcast_currentFrame (m : WireMsg) (st : HubState) :
    (hubBroadcast m st).1.currentFrame = st.currentFrame := rfl

/-- C10 (confirmed).  With the summarizer enabled, `broadcastFrame(f)`
installs `f` as the hub's current frame synchronously — the `/frame`
endpoint and the snapshot already serve `f` (still without a summary)
while no wire broadcast has happened yet — and when the summarization
then resolves with a non-empty summary, that summary is written onto
the same retained frame object: without any further `broadcastFrame`
call, the current-frame reference is unchanged and the endpoint and
snapshot now serve the identical frame with `summary` attached. -/
theorem frame_install_and_summary (st : HubState) (f : StreamFrame)
    (sres : String) (t1 t2 : Nat)
    (hen : st.summarizerEnabled = true) (hsum : f.summary = none)
    (hs : ¬ (sres = "")) :
    frameEndpoint (broadcastFrameStep f t1 st).1 = some f ∧
    (getStreamState (broadcastFrameStep f t1 st).1).currentFrame = some f ∧
    (broadcastFrameStep f t1 st).2 = [] ∧
    (summaryResolvedStep st.frameHeap.length sres t2
        (broadcastFrameStep f t1 st).1).1.currentFrame =
      (broadcastFrameStep f t1 st).1.currentFrame ∧
    frameEndpoint (summaryResolvedStep st.frameHeap.length sres t2
        (broadcastFrameStep f t1 st).1).1 = some { f with summary := some sres } ∧
    (getStreamState (summaryResolvedStep st.frameHeap.length sres t2
        (broadcastFrameStep f t1 st).1).1).currentFrame =
      some { f with summary := some sres } := by
  have hb : broadcastFrameStep f t1 st =
      ({ st with frameHeap := st.frameHeap ++ [f],
                 currentFrame := some st.frameHeap.length,
                 pendingSummaries := st.pendingSummaries ++ [st.frameHeap.length] },
       []) := by
    unfold broadcastFrameStep
    dsimp only
    simp [hen]
  have hget : (st.frameHeap ++ [f])[st.frameHeap.length]? = some f :=
    List.getElem?_concat_length st.frameHeap f
  have hlt : st.frameHeap.length < (st.frameHeap ++ [f]).length := by
    rw [List.length_append, List.length_singleton]
    omega
  have hsetget : ((st.frameHeap ++ [f]).set st.frameHeap.length
      { f with summary := some sres })[st.frameHeap.length]? =
      some { f with summary := some sres } :=
    List.getElem?_set_self hlt
  have hmem : st.frameHeap.length ∈
      (({ st with frameHeap := st.frameHeap ++ [f],
                  currentFrame := some st.frameHeap.length,
                  pendingSummaries := st.pendingSummaries ++ [st.frameHeap.length] }
        : HubState).pendingSummaries) := by
    show st.frameHeap.length ∈ st.pendingSummaries ++ [st.frameHeap.length]
    simp
  have hres : summaryResolvedStep st.frameHeap.length sres t2
      ({ st with frameHeap := st.frameHeap ++ [f],
                 currentFrame := some st.frameHeap.length,
                 pendingSummaries := st.pendingSummaries ++ [st.frameHeap.length] }
        : HubState) =
      hubBroadcast (.frame { f with summary := some sres } t2)
        { st with
          frameHeap := (st.frameHeap ++ [f]).set st.frameHeap.length
            { f with summary := some sres },
          currentFrame := some st.frameHeap.length,
          pendingSummaries :=
            (st.pendingSummaries ++ [st.frameHeap.length]).filter
              (fun r => r ≠ st.frameHeap.length) } := by
    unfold summaryResolvedStep
    rw [if_pos hmem]
    dsimp only
    rw [if_neg hs]
    show (match
        (match (st.frameHeap ++ [f])[st.frameHeap.length]? with
         | none => st.frameHeap ++ [f]
         | some fr => (st.frameHeap ++ [f]).set st.frameHeap.length
             { fr with summary := some sres })[st.frameHeap.length]? with
      | none => _
      | some fr => _) = _
    rw [hget]
    dsimp only
    rw [hsetget]
  have hfe : ∀ stx : HubState, frameEndpoint stx =
      stx.currentFrame.bind (fun r => stx.frameHeap[r]?) := fun _ => rfl
  have hgs : ∀ stx : HubState, (getStreamState stx).currentFrame =
      stx.currentFrame.bind (fun r => stx.frameHeap[r]?) := fun _ => rfl
  rw [hb]
  dsimp only
  rw [hres]
  refine ⟨?_, ?_, rfl, ?_, ?_, ?_⟩
  · rw [hfe]
    simp [hget]
  · rw [hgs]
    simp [hget]
  · rw [hubBroadcast_currentFrame]
  · rw [hfe, hubBroadcast_currentFrame, hubBroadcast_frameHeap]
    simp [hsetget]
  · rw [hgs, hubBroadcast_currentFrame, hubBroadcast_frameHeap]
    simp [hsetget]

/-- Witness for C10 at a concrete fresh hub (summarizer enabled), a
concrete summary-less frame, and the non-empty summary "desc". -/
theorem frame_install_and_summary_witness :
    ((initHub true []).summarizerEnabled = true ∧
      (⟨1, "img", "png", 2, 2, none⟩ : StreamFrame).summary = none ∧
      ¬ (("desc" : String) = "")) ∧
    (frameEndpoint (broadcastFrameStep ⟨1, "img", "png", 2, 2, none⟩ 5
        (initHub true [])).1 = some ⟨1, "img", "png", 2, 2, none⟩ ∧
      (getStreamState (broadcastFrameStep ⟨1, "img", "png", 2, 2, none⟩ 5
        (initHub true [])).1).currentFrame = some ⟨1, "img", "png", 2, 2, none⟩ ∧
      (broadcastFrameStep ⟨1, "img", "png", 2, 2, none⟩ 5 (initHub true [])).2 = [] ∧
      (summaryResolvedStep (initHub true []).frameHeap.length "desc" 6
          (broadcastFrameStep ⟨1, "img", "png", 2, 2, none⟩ 5
            (initHub true [])).1).1.currentFrame =
        (broadcastFrameStep ⟨1, "img", "png", 2, 2, none⟩ 5 (initHub true [])).1.currentFrame ∧
      frameEndpoint (summaryResolvedStep (initHub true []).frameHeap.length "desc" 6
          (broadcastFrameStep ⟨1, "img", "png", 2, 2, none⟩ 5
            (initHub true [])).1).1 = some ⟨1, "img", "png", 2, 2, some "desc"⟩ ∧
      (getStreamState (summaryResolvedStep (initHub true []).frameHeap.length "desc" 6
          (broadcastFrameStep ⟨1, "img", "png", 2, 2, none⟩ 5
            (initHub true [])).1).1).currentFrame =
        some ⟨1, "img", "png", 2, 2, some "desc"⟩) :=
  ⟨⟨rfl, rfl, by decide⟩,
   frame_install_and_summary (initHub true []) ⟨1, "img", "png", 2, 2, none⟩
     "desc" 5 6 rfl rfl (by decide)⟩
